import Mathlib

/-!
Verification of the image2doc processing core (src/src/core.py, src/src/ocr.py,
src/src/config.py, src/src/models.py) against its natural-language specification.

The Python code is shallowly embedded: page numbers are `Nat` (the OCR regex and
the GTK spin button only ever produce non-negative integers), the in-memory cache
`processed_sheets : set[int]` is a `Finset Nat`, the manual-correction dictionary
`correcoes_manuais : Dict[str, int]` is an association list whose insertion
prepends (so lookups see the newest binding, as a dict update does), and the
outcomes of external effects (PIL image reconstruction, PDF saving, the blocking
correction dialog, the GUI stop flag, future.result() raising) are inputs carried
on each file's job record.
-/

namespace Image2Doc

/-! ## Decimal rendering: the Python format `f"..{n:03d}.."` for a `Nat` -/

/-- One decimal digit character, as produced by Python integer formatting. -/
def dChar (d : Nat) : Char :=
  if d = 0 then '0' else if d = 1 then '1' else if d = 2 then '2'
  else if d = 3 then '3' else if d = 4 then '4' else if d = 5 then '5'
  else if d = 6 then '6' else if d = 7 then '7' else if d = 8 then '8'
  else if d = 9 then '9' else '0'

/-- Decimal digit characters of `n`, most significant first; structural fuel
recursion (the fuel `n + 1` always suffices since `n / 10 < n`). -/
def toDecCharsAux : Nat → Nat → List Char
  | 0, _ => []
  | fuel + 1, n =>
    if n < 10 then [dChar n]
    else toDecCharsAux fuel (n / 10) ++ [dChar (n % 10)]

/-- Decimal digit characters of `n`, most significant first. -/
def toDecChars (n : Nat) : List Char := toDecCharsAux (n + 1) n

/-- Python `f"..{n:03d}.."`: the decimal representation of `n`, left-padded with
zeros to at least three characters. -/
def pad3 (n : Nat) : String :=
  ⟨List.replicate (3 - (toDecChars n).length) '0' ++ toDecChars n⟩

/-- Numeric value of a digit character (used only to parse back what `dChar`
produced). -/
def digitVal (c : Char) : Nat := c.toNat - 48

/-- Left-to-right decimal accumulator over a character list. -/
def parseAcc : List Char → Nat → Nat
  | [], acc => acc
  | c :: cs, acc => parseAcc cs (acc * 10 + digitVal c)

theorem parseAcc_append (l1 l2 : List Char) (acc : Nat) :
    parseAcc (l1 ++ l2) acc = parseAcc l2 (parseAcc l1 acc) := by
  induction l1 generalizing acc with
  | nil => rfl
  | cons c cs ih => simp [parseAcc, ih]

theorem digitVal_dChar (d : Nat) (h : d < 10) : digitVal (dChar d) = d := by
  unfold dChar
  split_ifs with h0 h1 h2 h3 h4 h5 h6 h7 h8 h9 <;> subst_vars <;> first | rfl | omega

theorem dChar_isDigit (d : Nat) : (dChar d).isDigit = true := by
  unfold dChar
  split_ifs <;> decide

theorem toDecCharsAux_parse (fuel : Nat) :
    ∀ n acc, n < fuel →
      parseAcc (toDecCharsAux fuel n) acc = acc * 10 ^ (toDecCharsAux fuel n).length + n := by
  induction fuel with
  | zero => intro n acc h; omega
  | succ fuel ih =>
    intro n acc h
    unfold toDecCharsAux
    split
    · next h10 =>
      simp [parseAcc, digitVal_dChar n h10]
    · next h10 =>
      have hdiv : n / 10 < n := Nat.div_lt_self (by omega) (by omega)
      rw [parseAcc_append]
      simp only [parseAcc, List.length_append, List.length_singleton]
      rw [ih (n / 10) acc (by omega), digitVal_dChar (n % 10) (Nat.mod_lt n (by omega))]
      have := Nat.div_add_mod n 10
      rw [pow_succ]
      ring_nf
      omega

theorem toDecChars_parse (n : Nat) :
    ∀ acc, parseAcc (toDecChars n) acc = acc * 10 ^ (toDecChars n).length + n :=
  fun acc => toDecCharsAux_parse (n + 1) n acc (by omega)

theorem parseAcc_replicate_zero (k : Nat) :
    parseAcc (List.replicate k '0') 0 = 0 := by
  induction k with
  | zero => rfl
  | succ k ih => simpa [List.replicate, parseAcc, digitVal] using ih

theorem pad3_parse (n : Nat) : parseAcc (pad3 n).data 0 = n := by
  show parseAcc (List.replicate (3 - (toDecChars n).length) '0' ++ toDecChars n) 0 = n
  rw [parseAcc_append, parseAcc_replicate_zero, toDecChars_parse]
  simp

theorem pad3_injective : Function.Injective pad3 := by
  intro m n h
  have hd : (pad3 m).data = (pad3 n).data := congrArg String.data h
  have := pad3_parse m
  rw [show (pad3 m).data = (pad3 n).data from hd, pad3_parse n] at this
  omega

theorem toDecCharsAux_digits (fuel : Nat) :
    ∀ n, ∀ c ∈ toDecCharsAux fuel n, c.isDigit = true := by
  induction fuel with
  | zero => intro n c hc; cases hc
  | succ fuel ih =>
    intro n c hc
    unfold toDecCharsAux at hc
    split at hc
    · rw [List.mem_singleton] at hc
      exact hc ▸ dChar_isDigit n
    · rcases List.mem_append.1 hc with h1 | h1
      · exact ih (n / 10) c h1
      · rw [List.mem_singleton] at h1
        exact h1 ▸ dChar_isDigit (n % 10)

theorem toDecChars_digits (n : Nat) : ∀ c ∈ toDecChars n, c.isDigit = true :=
  toDecCharsAux_digits (n + 1) n

theorem pad3_digits (n : Nat) : ∀ c ∈ (pad3 n).data, c.isDigit = true := by
  intro c hc
  rcases List.mem_append.1 hc with h | h
  · have := List.eq_of_mem_replicate h
    subst this; decide
  · exact toDecChars_digits n c h

/-! ## Configuration (src/src/config.py) -/

/-- config.LIMIAR_CARACTERES_VERSO = DEFAULT_OCR_CONFIG.min_chars_for_front_page = 250. -/
def LIMIAR_CARACTERES_VERSO : Nat := 250

/-- The per-run parameters of run_processing_logic that the claims depend on. -/
structure Config where
  maxFolhas : Nat
deriving DecidableEq

/-! ## Data model of one consumed file

A FileJob packages the OCR worker outcome for one input image
(`_run_ocr_worker` in src/src/ocr.py returns
`(filename, folha_num_ocr, full_ocr_text, img_bytes)`) together with the
outcomes of the external effects the sequential loop body performs for it:
whether `Image.open(io.BytesIO(img_bytes))` succeeds, what the blocking
`ask_manual_correction_callback` returns if it is called (`none` = the user
declined; the GTK dialog validates numbers to `1..max_pages`, hence `Nat`),
whether `img.save(output_path, "PDF")` succeeds, the value of
`get_is_processing_state()` observed at the top of this file's iteration, and
whether `future.result()` returns without raising. -/
structure FileJob where
  /-- Python base_filename = os.path.splitext(filename)[0]. -/
  base : String
  folhaNumOcr : Option Nat
  fullText : String
  imgOk : Bool
  dialogResp : Option Nat
  saveOk : Bool
  contFlag : Bool
  resultOk : Bool
deriving DecidableEq

/-- The coordinator state mutated by the sequential loop:
`ultima_folha_processada`, `correcoes_manuais` and `processed_sheets`. -/
structure PipelineState where
  ultima : Nat
  correcoes : List (String × Nat)
  processed : Finset Nat
deriving DecidableEq

/-- What happened to one consumed file: skipped via the cache (line 179-184 of
core.py), written successfully (line 245-248), the PDF save raised (line
249-250), or the image payload could not be reconstructed (line 189-194).
`wrote`/`writeFailed` carry the output filename and the resolved
`folha_num`. -/
inductive FileResult where
  | cacheSkip (n : Nat)
  | wrote (name : String) (folhaNum : Option Nat)
  | writeFailed (name : String) (folhaNum : Option Nat)
  | imgFailed
deriving DecidableEq

/-- Python full_ocr_text.startswith("ERRO INTERNO NO WORKER:") (core.py line 169). -/
def workerErrorText (t : String) : Bool :=
  "ERRO INTERNO NO WORKER:".data.isPrefixOf t.data

/-- Python `\s` on the ASCII range: the characters removed by
`re.sub(r'\s+', '', text)` (core.py line 201). -/
def isPySpace (c : Char) : Bool :=
  c = ' ' || c = '\t' || c = '\n' || c = '\r' || c = '\x0b' || c = '\x0c'

/-- Python len of re.sub removing all whitespace from full_ocr_text (core.py lines 201 and 204). -/
def textoLimpoLen (t : String) : Nat :=
  (t.data.filter (fun c => ¬ isPySpace c)).length

/-- The candidate number after the worker-error check and the manual-correction
override (core.py lines 165-176): `folha_num = folha_num_ocr`; set to `None`
when the full text flags a worker error; then replaced by
`correcoes_manuais[base_filename]` when that key is present. -/
def effectiveFolha (st : PipelineState) (f : FileJob) : Option Nat :=
  let folhaNum := f.folhaNumOcr
  let folhaNum := if workerErrorText f.fullText then none else folhaNum
  match List.lookup f.base st.correcoes with
  | some k => some k
  | none => folhaNum

/-- Output-filename policy of core.py lines 228-237: 0 is the opening term,
`max_folhas + 1` the closing term, any other number is `FL. {n:03d}{sufixo}.pdf`,
and `None` is saved under the error name `ERRO_OCR_{base_filename}.pdf`. -/
def novoFilenameCore (maxFolhas : Nat) (folhaNum : Option Nat) (sufixo : String)
    (baseFilename : String) : String :=
  match folhaNum with
  | some n =>
    if n = 0 then "TERMO DE ABERTURA.pdf"
    else if n = maxFolhas + 1 then "TERMO DE ENCERRAMENTO.pdf"
    else "FL. " ++ pad3 n ++ sufixo ++ ".pdf"
  | none => "ERRO_OCR_" ++ baseFilename ++ ".pdf"

/-- core.py lines 223-250, the straight-line tail of the loop body shared by
every non-skipped path: advance `ultima_folha_processada` for an in-range
resolved number (line 224-225), derive the output filename (lines 228-238),
save, and add the number to `processed_sheets` only when the save succeeds
(lines 243-250). `folhaNum2`, `sufixo` and `correcoes2` are the values of
`folha_num`, `sufixo` and `correcoes_manuais` after lines 196-221. -/
def finishSave (cfg : Config) (st : PipelineState) (f : FileJob)
    (folhaNum2 : Option Nat) (sufixo : String) (correcoes2 : List (String × Nat)) :
    FileResult × PipelineState :=
  let ultima2 : Nat :=
    match folhaNum2 with
    | some n => if 0 < n ∧ n ≤ cfg.maxFolhas then n else st.ultima
    | none => st.ultima
  let nome := novoFilenameCore cfg.maxFolhas folhaNum2 sufixo f.base
  if f.saveOk then
    (FileResult.wrote nome folhaNum2,
     { ultima := ultima2, correcoes := correcoes2,
       processed := match folhaNum2 with
         | some n => insert n st.processed
         | none => st.processed })
  else
    (FileResult.writeFailed nome folhaNum2,
     { ultima := ultima2, correcoes := correcoes2, processed := st.processed })

/-- core.py lines 186-250: the part of the loop body that runs when the cache
did not skip the file. Reconstruct the image (on failure: log and `continue`
with no output, lines 189-194); resolve a `None` number via the verso
heuristic (lines 203-207) or the blocking manual-correction dialog (lines
209-221, recording a supplied correction into `correcoes_manuais`); then run
the shared tail `finishSave`. `is_termo` (line 197) is computed from the
incoming `folha_num`, so inside the `None` branch it is always false. -/
def processRest (cfg : Config) (st : PipelineState) (f : FileJob)
    (folhaNum : Option Nat) : FileResult × PipelineState :=
  if f.imgOk = false then (FileResult.imgFailed, st)
  else
    let isTermo : Bool := folhaNum == some 0 || folhaNum == some (cfg.maxFolhas + 1)
    match folhaNum with
    | some n => finishSave cfg st f (some n) "" st.correcoes
    | none =>
      if textoLimpoLen f.fullText < LIMIAR_CARACTERES_VERSO ∧ 0 < st.ultima ∧ isTermo = false then
        finishSave cfg st f (some st.ultima) "-verso" st.correcoes
      else
        match f.dialogResp with
        | some k => finishSave cfg st f (some k) "" ((f.base, k) :: st.correcoes)
        | none => finishSave cfg st f none "" st.correcoes

/-- One iteration of the sequential consumption loop (core.py lines 158-250):
compute the effective candidate number, skip via the cache when it is already
in `processed_sheets` (still advancing `ultima_folha_processada` for a regular
in-range number, lines 179-184), otherwise continue with `processRest`. -/
def processFile (cfg : Config) (st : PipelineState) (f : FileJob) :
    FileResult × PipelineState :=
  match effectiveFolha st f with
  | some n =>
    if n ∈ st.processed then
      (FileResult.cacheSkip n,
       { st with ultima := if 0 < n ∧ n ≤ cfg.maxFolhas then n else st.ultima })
    else processRest cfg st f (some n)
  | none => processRest cfg st f none

/-- The resolved folha number a result carries. -/
def folhaOf : FileResult → Option Nat
  | FileResult.cacheSkip n => some n
  | FileResult.wrote _ fo => fo
  | FileResult.writeFailed _ fo => fo
  | FileResult.imgFailed => none

/-- The names of the files actually written (successful saves) in a result
trace. -/
def writtenNames : List FileResult → List String
  | [] => []
  | FileResult.wrote name _ :: rs => name :: writtenNames rs
  | FileResult.cacheSkip _ :: rs => writtenNames rs
  | FileResult.writeFailed _ _ :: rs => writtenNames rs
  | FileResult.imgFailed :: rs => writtenNames rs

/-- The sequential consumption loop (core.py lines 150-260): for each file in
order, first check the stop flag (`break` when cleared, line 152-154), then
block on the file's future (`break` when `future.result()` raises, lines
252-260), then run the loop body. Returns the per-file results in consumption
order and the final state. -/
def runLoop (cfg : Config) : List FileJob → PipelineState →
    List FileResult × PipelineState
  | [], st => ([], st)
  | f :: rest, st =>
    if f.contFlag = false then ([], st)
    else if f.resultOk = false then ([], st)
    else
      let p := processFile cfg st f
      let q := runLoop cfg rest p.2
      (p.1 :: q.1, q.2)

/-! ## The output-cache loader (core.py lines 16-48, load_processed_sheets)

Python: for each listed filename, if `filename.lower().endswith('.pdf')`, run
`re.search(r'FL\. (\d{3})(?:-verso)?\.pdf', filename.upper())` and add the
captured number, then add 0 if `'TERMO DE ABERTURA' in filename.upper()` and
`max_folhas + 1` if `'TERMO DE ENCERRAMENTO' in filename.upper()`.
`Char.toUpper`/`Char.toLower` model `str.upper()`/`str.lower()` on the ASCII
filenames at issue. The regex is embedded literally: at a match position it
requires `F`, `L`, `.`, space, three digits, then either `-verso.pdf` or
`.pdf` — with the lowercase letters the pattern itself spells. -/

/-- One attempt of the regex `FL\. (\d{3})(?:-verso)?\.pdf` anchored at the head
of the list, returning the captured three-digit group: the literal `FL. `,
exactly three digits, then either the literal `-verso.pdf` or the literal
`.pdf` (the optional group tried with and without). -/
def matchFLAt : List Char → Option Nat
  | c1 :: c2 :: c3 :: c4 :: d1 :: d2 :: d3 :: rest =>
    if c1 = 'F' ∧ c2 = 'L' ∧ c3 = '.' ∧ c4 = ' '
        ∧ d1.isDigit ∧ d2.isDigit ∧ d3.isDigit
        ∧ ("-verso.pdf".data.isPrefixOf rest ∨ ".pdf".data.isPrefixOf rest) then
      some (digitVal d1 * 100 + digitVal d2 * 10 + digitVal d3)
    else none
  | _ => none

/-- Python re.search: try the pattern at each start position, left to right. -/
def searchFL : List Char → Option Nat
  | [] => none
  | c :: rest =>
    match matchFLAt (c :: rest) with
    | some n => some n
    | none => searchFL rest

/-- Python substring containment `needle in hay`. -/
def containsSub (needle hay : List Char) : Bool :=
  hay.tails.any fun t => needle.isPrefixOf t

/-- The folha numbers one listed filename contributes to the cache set. -/
def cacheNumsOf (maxFolhas : Nat) (filename : String) : List Nat :=
  if (".pdf".data.isSuffixOf (filename.data.map Char.toLower)) then
    let upper := filename.data.map Char.toUpper
    (match searchFL upper with | some n => [n] | none => []) ++
    (if containsSub "TERMO DE ABERTURA".data upper then [0] else []) ++
    (if containsSub "TERMO DE ENCERRAMENTO".data upper then [maxFolhas + 1] else [])
  else []

/-- load_processed_sheets(output_dir, max_folhas): the empty set when the
directory does not exist, otherwise the accumulated additions over the
directory listing. -/
def loadProcessedSheets (dirExists : Bool) (listing : List String)
    (maxFolhas : Nat) : Finset Nat :=
  if dirExists = false then ∅
  else listing.foldl
    (fun acc fn => (cacheNumsOf maxFolhas fn).foldl (fun a n => insert n a) acc) ∅

/-! ## The coordinator entry point (core.py lines 52-276, run_processing_logic)

External effects are inputs: whether the output directory already exists and
whether `os.makedirs` succeeds when it does not (lines 99-106), the output
directory listing read by the cache loader (line 109), the sorted list of
discovered `.jpg`/`.jpeg` jobs (lines 113-122), and whether the
parallel-execution block raises (the outer `try` of lines 134-270). Every
early exit in the Python source is a bare `return`, i.e. `None`; only the
final line 276 returns `ultima_folha_processada`. -/
structure RunEnv where
  outputDirExists : Bool
  mkdirOk : Bool
  poolFails : Bool
deriving DecidableEq

/-- run_processing_logic, with the GUI callbacks erased (they only log) and the
external effects read from `env`. Returns `none` where Python returns `None`. -/
def runProcessingLogic (cfg : Config) (env : RunEnv) (outputListing : List String)
    (arquivosOrdenados : List FileJob) (ultimaIn : Nat)
    (correcoesIn : List (String × Nat)) : Option Nat :=
  if env.outputDirExists = false ∧ env.mkdirOk = false then none
  else
    if arquivosOrdenados.isEmpty then none
    else if env.poolFails then none
    else some (runLoop cfg arquivosOrdenados
      { ultima := ultimaIn, correcoes := correcoesIn,
        processed := loadProcessedSheets true outputListing cfg.maxFolhas }).2.ultima

/-! ## Page dispositions and the output-filename policy (spec section 4.6) -/

/-- The spec's PageDisposition, as realised by core.py lines 228-237: the
disposition of a finalized page is encoded there by the pair
(folha_num, sufixo) — 0 is the opening term, max_folhas+1 the closing term,
None an unresolved/error page, any other number a regular page or, with the
"-verso" suffix, a back page. -/
inductive PageDisposition where
  | openingTerm
  | closingTerm
  | regular (n : Nat)
  | backPage (n : Nat)
  | unresolved (base : String)
deriving DecidableEq

/-- The output filename of a disposition, through the code's filename policy
(novoFilenameCore): the encoding of each disposition into the code's
(folha_num, sufixo, base_filename) arguments. -/
def outputFilename (maxFolhas : Nat) : PageDisposition → String
  | PageDisposition.openingTerm => novoFilenameCore maxFolhas (some 0) "" ""
  | PageDisposition.closingTerm => novoFilenameCore maxFolhas (some (maxFolhas + 1)) "" ""
  | PageDisposition.regular n => novoFilenameCore maxFolhas (some n) "" ""
  | PageDisposition.backPage n => novoFilenameCore maxFolhas (some n) "-verso" ""
  | PageDisposition.unresolved b => novoFilenameCore maxFolhas none "" b

/-- In-range dispositions: regular and back pages carry a number in
1..maxFolhas (the sentinels 0 and maxFolhas+1 belong to the term
dispositions). -/
def validDisp (maxFolhas : Nat) : PageDisposition → Prop
  | PageDisposition.regular n => 1 ≤ n ∧ n ≤ maxFolhas
  | PageDisposition.backPage n => 1 ≤ n ∧ n ≤ maxFolhas
  | _ => True

theorem outputFilename_opening (maxFolhas : Nat) :
    outputFilename maxFolhas PageDisposition.openingTerm = "TERMO DE ABERTURA.pdf" := rfl

theorem outputFilename_closing (maxFolhas : Nat) :
    outputFilename maxFolhas PageDisposition.closingTerm = "TERMO DE ENCERRAMENTO.pdf" := by
  simp [outputFilename, novoFilenameCore]

theorem outputFilename_regular (maxFolhas n : Nat) (h1 : 1 ≤ n) (h2 : n ≤ maxFolhas) :
    outputFilename maxFolhas (PageDisposition.regular n) = "FL. " ++ pad3 n ++ "" ++ ".pdf" := by
  simp only [outputFilename, novoFilenameCore]
  rw [if_neg (by omega), if_neg (by omega)]

theorem outputFilename_backPage (maxFolhas n : Nat) (h1 : 1 ≤ n) (h2 : n ≤ maxFolhas) :
    outputFilename maxFolhas (PageDisposition.backPage n) = "FL. " ++ pad3 n ++ "-verso" ++ ".pdf" := by
  simp only [outputFilename, novoFilenameCore]
  rw [if_neg (by omega), if_neg (by omega)]

theorem outputFilename_unresolved (maxFolhas : Nat) (b : String) :
    outputFilename maxFolhas (PageDisposition.unresolved b) = "ERRO_OCR_" ++ b ++ ".pdf" := rfl

theorem data_flname (n : Nat) (s : String) :
    ("FL. " ++ pad3 n ++ s ++ ".pdf").data
      = 'F' :: 'L' :: '.' :: ' ' :: ((pad3 n).data ++ (s.data ++ ['.', 'p', 'd', 'f'])) := by
  simp [String.data_append]

theorem data_erroname (b : String) :
    ("ERRO_OCR_" ++ b ++ ".pdf").data
      = 'E' :: 'R' :: 'R' :: 'O' :: '_' :: 'O' :: 'C' :: 'R' :: '_' :: (b.data ++ ['.', 'p', 'd', 'f']) := by
  simp [String.data_append]

theorem digit_ne_dash {c : Char} (h : c.isDigit = true) : c ≠ '-' := by
  intro hc
  subst hc
  simp at h

theorem dash_not_mem_pad3 (n : Nat) : ('-' : Char) ∉ (pad3 n).data := by
  intro hmem
  exact digit_ne_dash (pad3_digits n '-' hmem) rfl

theorem head_flname (n : Nat) (s : String) :
    ("FL. " ++ pad3 n ++ s ++ ".pdf").data.head? = some 'F' := by
  rw [data_flname]; rfl

theorem head_erroname (b : String) :
    ("ERRO_OCR_" ++ b ++ ".pdf").data.head? = some 'E' := by
  rw [data_erroname]; rfl

theorem flname_inj {n m : Nat} {s : String}
    (h : "FL. " ++ pad3 n ++ s ++ ".pdf" = "FL. " ++ pad3 m ++ s ++ ".pdf") : n = m := by
  have hd := congrArg String.data h
  rw [data_flname, data_flname] at hd
  have h4 : (pad3 n).data ++ (s.data ++ ['.', 'p', 'd', 'f'])
      = (pad3 m).data ++ (s.data ++ ['.', 'p', 'd', 'f']) := congrArg (List.drop 4) hd
  exact pad3_injective (String.ext (List.append_cancel_right h4))

theorem flname_suffix_conflict {n m : Nat}
    (h : "FL. " ++ pad3 n ++ "" ++ ".pdf" = "FL. " ++ pad3 m ++ "-verso" ++ ".pdf") : False := by
  have hd := congrArg String.data h
  rw [data_flname, data_flname] at hd
  have h4 : (pad3 n).data ++ (([] : List Char) ++ ['.', 'p', 'd', 'f'])
      = (pad3 m).data ++ ("-verso".data ++ ['.', 'p', 'd', 'f']) := congrArg (List.drop 4) hd
  have hmem : ('-' : Char) ∈ (pad3 m).data ++ ("-verso".data ++ ['.', 'p', 'd', 'f']) :=
    List.mem_append_right _ (List.mem_append_left _ (by decide))
  rw [← h4] at hmem
  rcases List.mem_append.1 hmem with hm | hm
  · exact dash_not_mem_pad3 n hm
  · simp at hm

/-- Claim C9: the output-filename function is deterministic (it is a function)
and injective on dispositions whose numbers are in range: the opening term,
the closing term, regular pages, back pages and error pages all receive
pairwise distinct filenames, and equal filenames force equal dispositions
(including equal page numbers and equal base filenames). -/
theorem outputFilename_injective (maxFolhas : Nat) (d1 d2 : PageDisposition)
    (h1 : validDisp maxFolhas d1) (h2 : validDisp maxFolhas d2)
    (h : outputFilename maxFolhas d1 = outputFilename maxFolhas d2) : d1 = d2 := by
  cases d1 with
  | openingTerm =>
    cases d2 with
    | openingTerm => rfl
    | closingTerm =>
      rw [outputFilename_opening, outputFilename_closing] at h
      exact absurd h (by decide)
    | regular m =>
      obtain ⟨ha, hb⟩ := h2
      rw [outputFilename_opening, outputFilename_regular maxFolhas m ha hb] at h
      exact absurd ((congrArg (fun t => t.data.head?) h).trans (head_flname m "")) (by decide)
    | backPage m =>
      obtain ⟨ha, hb⟩ := h2
      rw [outputFilename_opening, outputFilename_backPage maxFolhas m ha hb] at h
      exact absurd ((congrArg (fun t => t.data.head?) h).trans (head_flname m "-verso")) (by decide)
    | unresolved b =>
      rw [outputFilename_opening, outputFilename_unresolved] at h
      exact absurd ((congrArg (fun t => t.data.head?) h).trans (head_erroname b)) (by decide)
  | closingTerm =>
    cases d2 with
    | openingTerm =>
      rw [outputFilename_opening, outputFilename_closing] at h
      exact absurd h (by decide)
    | closingTerm => rfl
    | regular m =>
      obtain ⟨ha, hb⟩ := h2
      rw [outputFilename_closing, outputFilename_regular maxFolhas m ha hb] at h
      exact absurd ((congrArg (fun t => t.data.head?) h).trans (head_flname m "")) (by decide)
    | backPage m =>
      obtain ⟨ha, hb⟩ := h2
      rw [outputFilename_closing, outputFilename_backPage maxFolhas m ha hb] at h
      exact absurd ((congrArg (fun t => t.data.head?) h).trans (head_flname m "-verso")) (by decide)
    | unresolved b =>
      rw [outputFilename_closing, outputFilename_unresolved] at h
      exact absurd ((congrArg (fun t => t.data.head?) h).trans (head_erroname b)) (by decide)
  | regular n =>
    obtain ⟨ha, hb⟩ := h1
    rw [outputFilename_regular maxFolhas n ha hb] at h
    cases d2 with
    | openingTerm =>
      rw [outputFilename_opening] at h
      exact absurd ((congrArg (fun t => t.data.head?) h.symm).trans (head_flname n "")) (by decide)
    | closingTerm =>
      rw [outputFilename_closing] at h
      exact absurd ((congrArg (fun t => t.data.head?) h.symm).trans (head_flname n "")) (by decide)
    | regular m =>
      obtain ⟨hc, hd⟩ := h2
      rw [outputFilename_regular maxFolhas m hc hd] at h
      exact congrArg PageDisposition.regular (flname_inj h)
    | backPage m =>
      obtain ⟨hc, hd⟩ := h2
      rw [outputFilename_backPage maxFolhas m hc hd] at h
      exact absurd h (fun hh => flname_suffix_conflict hh)
    | unresolved b =>
      rw [outputFilename_unresolved] at h
      exact absurd ((head_erroname b).symm.trans
        ((congrArg (fun t => t.data.head?) h.symm).trans (head_flname n ""))) (by decide)
  | backPage n =>
    obtain ⟨ha, hb⟩ := h1
    rw [outputFilename_backPage maxFolhas n ha hb] at h
    cases d2 with
    | openingTerm =>
      rw [outputFilename_opening] at h
      exact absurd ((congrArg (fun t => t.data.head?) h.symm).trans (head_flname n "-verso")) (by decide)
    | closingTerm =>
      rw [outputFilename_closing] at h
      exact absurd ((congrArg (fun t => t.data.head?) h.symm).trans (head_flname n "-verso")) (by decide)
    | regular m =>
      obtain ⟨hc, hd⟩ := h2
      rw [outputFilename_regular maxFolhas m hc hd] at h
      exact absurd h.symm (fun hh => flname_suffix_conflict hh)
    | backPage m =>
      obtain ⟨hc, hd⟩ := h2
      rw [outputFilename_backPage maxFolhas m hc hd] at h
      exact congrArg PageDisposition.backPage (flname_inj h)
    | unresolved b =>
      rw [outputFilename_unresolved] at h
      exact absurd ((head_erroname b).symm.trans
        ((congrArg (fun t => t.data.head?) h.symm).trans (head_flname n "-verso"))) (by decide)
  | unresolved b1 =>
    rw [outputFilename_unresolved] at h
    cases d2 with
    | openingTerm =>
      rw [outputFilename_opening] at h
      exact absurd ((congrArg (fun t => t.data.head?) h.symm).trans (head_erroname b1)) (by decide)
    | closingTerm =>
      rw [outputFilename_closing] at h
      exact absurd ((congrArg (fun t => t.data.head?) h.symm).trans (head_erroname b1)) (by decide)
    | regular m =>
      obtain ⟨hc, hd⟩ := h2
      rw [outputFilename_regular maxFolhas m hc hd] at h
      exact absurd ((head_erroname b1).symm.trans
        ((congrArg (fun t => t.data.head?) h).trans (head_flname m ""))) (by decide)
    | backPage m =>
      obtain ⟨hc, hd⟩ := h2
      rw [outputFilename_backPage maxFolhas m hc hd] at h
      exact absurd ((head_erroname b1).symm.trans
        ((congrArg (fun t => t.data.head?) h).trans (head_flname m "-verso"))) (by decide)
    | unresolved b2 =>
      rw [outputFilename_unresolved] at h
      have hd := congrArg String.data h
      rw [data_erroname, data_erroname] at hd
      have h9 : b1.data ++ ['.', 'p', 'd', 'f'] = b2.data ++ ['.', 'p', 'd', 'f'] :=
        congrArg (List.drop 9) hd
      exact congrArg PageDisposition.unresolved (String.ext (List.append_cancel_right h9))

/-- Witness for claim C9 at concrete inputs: the injectivity theorem applied to
two in-range regular dispositions with equal filenames. -/
theorem claim9_witness :
    validDisp 300 (PageDisposition.regular 7)
  ∧ outputFilename 300 (PageDisposition.regular 7)
      = outputFilename 300 (PageDisposition.regular 7)
  ∧ PageDisposition.regular 7 = PageDisposition.regular 7 :=
  ⟨⟨by omega, by omega⟩, rfl,
    outputFilename_injective 300 (PageDisposition.regular 7) (PageDisposition.regular 7)
      ⟨by omega, by omega⟩ ⟨by omega, by omega⟩ rfl⟩

/-! ## Characterization lemmas for the loop body -/

/-- With a reconstructible image and a resolved incoming number, the loop body
tail runs directly: no verso rule, no dialog. -/
theorem processRest_some (cfg : Config) (st : PipelineState) (f : FileJob) (n : Nat)
    (himg : f.imgOk = true) :
    processRest cfg st f (some n) = finishSave cfg st f (some n) "" st.correcoes := by
  unfold processRest
  rw [himg]
  simp

/-- On an unresolved number, when the verso rule fires (short stripped text and
a positive last confirmed page), the file becomes the back page of the last
confirmed page. -/
theorem processRest_none_verso (cfg : Config) (st : PipelineState) (f : FileJob)
    (himg : f.imgOk = true)
    (hshort : textoLimpoLen f.fullText < LIMIAR_CARACTERES_VERSO)
    (hpos : 0 < st.ultima) :
    processRest cfg st f none = finishSave cfg st f (some st.ultima) "-verso" st.correcoes := by
  unfold processRest
  rw [himg]
  simp [hshort, hpos]

/-- On an unresolved number, when the verso rule does not fire, the blocking
manual-correction dialog decides: a supplied number is recorded into
`correcoes_manuais` and used; a declined dialog leads to the error-named
output. -/
theorem processRest_none_dialog (cfg : Config) (st : PipelineState) (f : FileJob)
    (himg : f.imgOk = true)
    (hnv : ¬ (textoLimpoLen f.fullText < LIMIAR_CARACTERES_VERSO ∧ 0 < st.ultima)) :
    processRest cfg st f none =
      match f.dialogResp with
      | some k => finishSave cfg st f (some k) "" ((f.base, k) :: st.correcoes)
      | none => finishSave cfg st f none "" st.correcoes := by
  unfold processRest
  rw [himg]
  have h2 : ¬ (textoLimpoLen f.fullText < LIMIAR_CARACTERES_VERSO ∧ 0 < st.ultima ∧
      ((none == some 0 || none == some (cfg.maxFolhas + 1)) = false)) :=
    fun hc => hnv ⟨hc.1, hc.2.1⟩
  simp only [Bool.false_eq_true, if_false]
  rw [if_neg h2]
  simp

theorem finishSave_folhaOf (cfg : Config) (st : PipelineState) (f : FileJob)
    (fo : Option Nat) (s : String) (c : List (String × Nat)) :
    folhaOf (finishSave cfg st f fo s c).1 = fo := by
  unfold finishSave
  cases fo <;> by_cases hs : f.saveOk = true <;> simp [hs, folhaOf]

theorem finishSave_ultima_spec (cfg : Config) (st : PipelineState) (f : FileJob)
    (fo : Option Nat) (s : String) (c : List (String × Nat)) :
    (finishSave cfg st f fo s c).2.ultima =
      match folhaOf (finishSave cfg st f fo s c).1 with
      | some n => if 0 < n ∧ n ≤ cfg.maxFolhas then n else st.ultima
      | none => st.ultima := by
  rw [finishSave_folhaOf]
  unfold finishSave
  cases fo <;> by_cases hs : f.saveOk = true <;> simp [hs]

theorem finishSave_fst (cfg : Config) (st : PipelineState) (f : FileJob)
    (fo : Option Nat) (s : String) (c : List (String × Nat)) (hs : f.saveOk = true) :
    (finishSave cfg st f fo s c).1
      = FileResult.wrote (novoFilenameCore cfg.maxFolhas fo s f.base) fo := by
  unfold finishSave
  rw [hs]
  rfl

theorem finishSave_fst_failed (cfg : Config) (st : PipelineState) (f : FileJob)
    (fo : Option Nat) (s : String) (c : List (String × Nat)) (hs : f.saveOk = false) :
    (finishSave cfg st f fo s c).1
      = FileResult.writeFailed (novoFilenameCore cfg.maxFolhas fo s f.base) fo := by
  unfold finishSave
  rw [hs]
  rfl

theorem finishSave_snd_correcoes (cfg : Config) (st : PipelineState) (f : FileJob)
    (fo : Option Nat) (s : String) (c : List (String × Nat)) :
    (finishSave cfg st f fo s c).2.correcoes = c := by
  unfold finishSave
  cases fo <;> by_cases hs : f.saveOk = true <;> simp [hs]

theorem processRest_imgFailed (cfg : Config) (st : PipelineState) (f : FileJob)
    (fo : Option Nat) (himg : f.imgOk = false) :
    processRest cfg st f fo = (FileResult.imgFailed, st) := by
  unfold processRest
  rw [himg]
  rfl

theorem processRest_ultima_spec (cfg : Config) (st : PipelineState) (f : FileJob)
    (fo : Option Nat) :
    (processRest cfg st f fo).2.ultima =
      match folhaOf (processRest cfg st f fo).1 with
      | some n => if 0 < n ∧ n ≤ cfg.maxFolhas then n else st.ultima
      | none => st.ultima := by
  by_cases himg : f.imgOk = true
  · cases fo with
    | some n =>
      rw [processRest_some cfg st f n himg]
      exact finishSave_ultima_spec cfg st f (some n) "" st.correcoes
    | none =>
      by_cases hv : textoLimpoLen f.fullText < LIMIAR_CARACTERES_VERSO ∧ 0 < st.ultima
      · rw [processRest_none_verso cfg st f himg hv.1 hv.2]
        exact finishSave_ultima_spec cfg st f (some st.ultima) "-verso" st.correcoes
      · rw [processRest_none_dialog cfg st f himg hv]
        cases f.dialogResp with
        | some k => exact finishSave_ultima_spec cfg st f (some k) "" ((f.base, k) :: st.correcoes)
        | none => exact finishSave_ultima_spec cfg st f none "" st.correcoes
  · have himg2 : f.imgOk = false := by revert himg; cases f.imgOk <;> simp
    rw [processRest_imgFailed cfg st f fo himg2]
    rfl

theorem processFile_cache_hit (cfg : Config) (st : PipelineState) (f : FileJob) (n : Nat)
    (h1 : effectiveFolha st f = some n) (h2 : n ∈ st.processed) :
    processFile cfg st f =
      (FileResult.cacheSkip n,
       { st with ultima := if 0 < n ∧ n ≤ cfg.maxFolhas then n else st.ultima }) := by
  unfold processFile
  rw [h1]
  simp [h2]

theorem processFile_cache_miss (cfg : Config) (st : PipelineState) (f : FileJob) (n : Nat)
    (h1 : effectiveFolha st f = some n) (h2 : n ∉ st.processed) :
    processFile cfg st f = processRest cfg st f (some n) := by
  unfold processFile
  rw [h1]
  simp [h2]

theorem processFile_effective_none (cfg : Config) (st : PipelineState) (f : FileJob)
    (h1 : effectiveFolha st f = none) :
    processFile cfg st f = processRest cfg st f none := by
  unfold processFile
  rw [h1]

theorem processFile_ultima_spec (cfg : Config) (st : PipelineState) (f : FileJob) :
    (processFile cfg st f).2.ultima =
      match folhaOf (processFile cfg st f).1 with
      | some n => if 0 < n ∧ n ≤ cfg.maxFolhas then n else st.ultima
      | none => st.ultima := by
  cases heff : effectiveFolha st f with
  | none =>
    rw [processFile_effective_none cfg st f heff]
    exact processRest_ultima_spec cfg st f none
  | some n =>
    by_cases hmem : n ∈ st.processed
    · rw [processFile_cache_hit cfg st f n heff hmem]
      rfl
    · rw [processFile_cache_miss cfg st f n heff hmem]
      exact processRest_ultima_spec cfg st f (some n)

/-! ## Claim C2 -/

/-- Claim C2: for every consumed file whose effective candidate number n (after
the worker-error check and the manual-correction override) is already in
`processed_sheets`, the file is a cache-skip — nothing is written — and
`ultima_folha_processada` is set to n exactly when 0 < n ≤ max_folhas; the
resulting state equals the state a successful write of the same page (starting
from a cache without n) would have produced. -/
theorem claim2_cache_skip_numbering (cfg : Config) (st : PipelineState) (f : FileJob) (n : Nat)
    (h1 : effectiveFolha st f = some n) (h2 : n ∈ st.processed) :
    processFile cfg st f =
      (FileResult.cacheSkip n,
       { st with ultima := if 0 < n ∧ n ≤ cfg.maxFolhas then n else st.ultima })
    ∧ (processRest cfg { st with processed := st.processed.erase n }
         { f with imgOk := true, saveOk := true } (some n)).2
        = { st with ultima := if 0 < n ∧ n ≤ cfg.maxFolhas then n else st.ultima } := by
  refine ⟨processFile_cache_hit cfg st f n h1 h2, ?_⟩
  rw [processRest_some _ _ _ _ (by rfl)]
  unfold finishSave
  simp [Finset.insert_erase h2]

/-- Witness for claim C2 at a concrete input: candidate 5 is already cached, so
the file is skipped and the last confirmed page advances to 5. -/
theorem claim2_witness :
    effectiveFolha ⟨0, [], {5}⟩ ⟨"a", some 5, "", true, none, true, true, true⟩ = some 5
  ∧ (5 : Nat) ∈ (⟨0, [], {5}⟩ : PipelineState).processed
  ∧ (processFile ⟨300⟩ ⟨0, [], {5}⟩ ⟨"a", some 5, "", true, none, true, true, true⟩).1
      = FileResult.cacheSkip 5 :=
  ⟨by decide, by decide, by
    rw [(claim2_cache_skip_numbering ⟨300⟩ ⟨0, [], {5}⟩
      ⟨"a", some 5, "", true, none, true, true, true⟩ 5 (by decide) (by decide)).1]⟩

/-! ## Claim C3 -/

/-- Claim C3 counterexample: the claim says a number already in
`processed_sheets` is never written again, including numbers supplied by the
manual-correction dialog. But the cache check runs before the dialog: here 7
is already processed, OCR found nothing, the dialog supplies 7, and the file
is written as `FL. 007.pdf` while 7 is in `processed_sheets`. -/
theorem claim3_counterexample :
    (7 : Nat) ∈ (⟨0, [], {7}⟩ : PipelineState).processed
  ∧ (processFile ⟨300⟩ ⟨0, [], {7}⟩ ⟨"a", none, "", true, some 7, true, true, true⟩).1
      = FileResult.wrote "FL. 007.pdf" (some 7) := by
  constructor
  · decide
  · decide

/-- Claim C3 amended: a written number that was determined before the cache
check — the OCR candidate surviving the worker-error check, or a previously
recorded manual correction — was not in `processed_sheets` at the moment of the
write; numbers assigned later in the same iteration (back-page inference or a
fresh dialog correction) bypass the cache check. -/
theorem claim3_amended (cfg : Config) (st : PipelineState) (f : FileJob) (n : Nat)
    (name : String) (m : Option Nat)
    (h1 : effectiveFolha st f = some n)
    (h2 : (processFile cfg st f).1 = FileResult.wrote name m) :
    m = some n ∧ n ∉ st.processed := by
  by_cases hmem : n ∈ st.processed
  · rw [processFile_cache_hit cfg st f n h1 hmem] at h2
    simp at h2
  · refine ⟨?_, hmem⟩
    rw [processFile_cache_miss cfg st f n h1 hmem] at h2
    by_cases himg : f.imgOk = true
    · rw [processRest_some cfg st f n himg] at h2
      have hf := finishSave_folhaOf cfg st f (some n) "" st.correcoes
      rw [h2] at hf
      exact hf
    · have himg2 : f.imgOk = false := by revert himg; cases f.imgOk <;> simp
      rw [processRest_imgFailed cfg st f (some n) himg2] at h2
      simp at h2

/-- Witness for claim C3 (amended) at a concrete input: candidate 9, cache
without 9, written as FL. 009.pdf with 9 not yet processed. -/
theorem claim3_witness :
    effectiveFolha ⟨0, [], {7}⟩ ⟨"a", some 9, "", true, none, true, true, true⟩ = some 9
  ∧ (processFile ⟨300⟩ ⟨0, [], {7}⟩ ⟨"a", some 9, "", true, none, true, true, true⟩).1
      = FileResult.wrote "FL. 009.pdf" (some 9)
  ∧ (some 9 = some 9 ∧ (9 : Nat) ∉ (⟨0, [], {7}⟩ : PipelineState).processed) :=
  ⟨by decide, by decide,
    claim3_amended ⟨300⟩ ⟨0, [], {7}⟩ ⟨"a", some 9, "", true, none, true, true, true⟩ 9
      "FL. 009.pdf" (some 9) (by decide) (by decide)⟩

/-! ## Claim C4 -/

theorem finishSave_congr (cfg : Config) (st : PipelineState) (f1 f2 : FileJob)
    (fo : Option Nat) (s : String) (c : List (String × Nat))
    (hb : f1.base = f2.base) (hs : f1.saveOk = f2.saveOk) :
    finishSave cfg st f1 fo s c = finishSave cfg st f2 fo s c := by
  unfold finishSave
  rw [hb, hs]

/-- Claim C4 counterexample: the claim says a recorded correction makes every
later classification of the file yield Regular(k). Here the correction
("a", 7) is recorded and 7 is already in `processed_sheets`: the cache check —
which runs after the override — classifies the file as a cache-skip, not as a
Regular(7) write. -/
theorem claim4_counterexample :
    List.lookup "a" ([("a", 7)] : List (String × Nat)) = some 7
  ∧ (processFile ⟨300⟩ ⟨0, [("a", 7)], {7}⟩
       ⟨"a", some 3, "whatever", true, none, true, true, true⟩).1
      = FileResult.cacheSkip 7
  ∧ FileResult.cacheSkip 7 ≠ FileResult.wrote "FL. 007.pdf" (some 7) := by
  refine ⟨by decide, by decide, by decide⟩

/-- Claim C4 amended: manual corrections are sticky — once
`correcoes_manuais[base] = k` is recorded, every later processing of an
outcome with that base filename replaces the candidate number by k before the
cache check and all subsequent steps, regardless of what OCR returned (the
whole step is independent of the OCR candidate, the full text and the dialog);
the classification is then a cache-skip when k is already in
`processed_sheets`, and a Regular(k) write (`FL. {k:03d}.pdf`) when it is not
and k is a regular in-range number. -/
theorem claim4_amended (cfg : Config) (st : PipelineState) (f : FileJob) (k : Nat)
    (h : List.lookup f.base st.correcoes = some k) :
    (∀ o t d, processFile cfg st f
        = processFile cfg st { f with folhaNumOcr := o, fullText := t, dialogResp := d })
  ∧ (k ∈ st.processed → (processFile cfg st f).1 = FileResult.cacheSkip k)
  ∧ (k ∉ st.processed → 1 ≤ k → k ≤ cfg.maxFolhas → f.imgOk = true → f.saveOk = true →
      (processFile cfg st f).1
        = FileResult.wrote ("FL. " ++ pad3 k ++ "" ++ ".pdf") (some k)) := by
  have heff : effectiveFolha st f = some k := by
    unfold effectiveFolha
    rw [h]
  refine ⟨?_, ?_, ?_⟩
  · intro o t d
    have heff2 : effectiveFolha st { f with folhaNumOcr := o, fullText := t, dialogResp := d }
        = some k := by
      unfold effectiveFolha
      rw [show ({ f with folhaNumOcr := o, fullText := t, dialogResp := d } : FileJob).base
            = f.base from rfl, h]
    by_cases hmem : k ∈ st.processed
    · rw [processFile_cache_hit cfg st f k heff hmem,
        processFile_cache_hit cfg st _ k heff2 hmem]
    · rw [processFile_cache_miss cfg st f k heff hmem,
        processFile_cache_miss cfg st _ k heff2 hmem]
      by_cases himg : f.imgOk = true
      · rw [processRest_some cfg st f k himg,
          processRest_some cfg st { f with folhaNumOcr := o, fullText := t, dialogResp := d } k himg]
        exact finishSave_congr cfg st f _ (some k) "" st.correcoes rfl rfl
      · have himg2 : f.imgOk = false := by revert himg; cases f.imgOk <;> simp
        rw [processRest_imgFailed cfg st f (some k) himg2,
          processRest_imgFailed cfg st { f with folhaNumOcr := o, fullText := t, dialogResp := d }
            (some k) himg2]
  · intro hmem
    rw [processFile_cache_hit cfg st f k heff hmem]
  · intro hmem h1 h2 himg hsave
    rw [processFile_cache_miss cfg st f k heff hmem, processRest_some cfg st f k himg,
      finishSave_fst cfg st f (some k) "" st.correcoes hsave]
    simp only [novoFilenameCore]
    rw [if_neg (by omega), if_neg (by omega)]

/-- Witness for claim C4 (amended) at a concrete input: with the recorded
correction ("a", 12) and OCR candidate 3, the step ignores OCR and writes
FL. 012.pdf. -/
theorem claim4_witness :
    List.lookup "a" ([("a", 12)] : List (String × Nat)) = some 12
  ∧ (12 : Nat) ∉ (⟨0, [("a", 12)], {7}⟩ : PipelineState).processed
  ∧ (processFile ⟨300⟩ ⟨0, [("a", 12)], {7}⟩
       ⟨"a", some 3, "xyz", true, none, true, true, true⟩).1
      = FileResult.wrote ("FL. " ++ pad3 12 ++ "" ++ ".pdf") (some 12) :=
  ⟨by decide, by decide,
    (claim4_amended ⟨300⟩ ⟨0, [("a", 12)], {7}⟩
        ⟨"a", some 3, "xyz", true, none, true, true, true⟩ 12 (by decide)).2.2
      (by decide) (by decide) (by decide) (by decide) (by decide)⟩

/-! ## Claim C1 -/

/-- The shape of the outcome a worker actually produces on an internal error:
the exception handler of _run_ocr_worker (ocr.py lines 154-156) returns
`(basename, None, "ERRO INTERNO NO WORKER: ...", b'')` — candidate number
None, the error-marker text, and an empty image payload. PIL's `Image.open`
raises on an empty byte string, so the loop body's reconstruction (core.py
line 191) fails for every such outcome. -/
def workerErrorJob (f : FileJob) : Prop :=
  workerErrorText f.fullText = true ∧ f.folhaNumOcr = none ∧ f.imgOk = false

/-- Claim C1 counterexample: the claim says every outcome with a worker error
is routed to the Unresolved disposition, triggering a manual-correction
request. But a worker error carries an empty image payload (ocr.py line 156)
whose reconstruction always fails, so the loop body skips the file before any
classification (core.py lines 189-194): the result is an image-reconstruction
skip with the state unchanged — no manual-correction request is ever issued
(the result is the same whatever the dialog would answer), and no error-named
output or any other disposition is produced. -/
theorem claim1_counterexample :
    workerErrorText "ERRO INTERNO NO WORKER: x" = true
  ∧ processFile ⟨300⟩ ⟨5, [], ∅⟩
      ⟨"x", none, "ERRO INTERNO NO WORKER: x", false, none, true, true, true⟩
      = (FileResult.imgFailed, ⟨5, [], ∅⟩)
  ∧ processFile ⟨300⟩ ⟨5, [], ∅⟩
      ⟨"x", none, "ERRO INTERNO NO WORKER: x", false, some 42, true, true, true⟩
      = (FileResult.imgFailed, ⟨5, [], ∅⟩) := by
  refine ⟨by decide, by decide, by decide⟩

/-- Claim C1 amended: for every outcome a worker produces on an internal error
(error-marker text, candidate None, empty image payload — whose reconstruction
always fails), the candidate page number is forced to none, but the page is
never routed to the Unresolved disposition and no manual-correction request is
issued: unless a previously recorded manual correction supplies a number
already in `processed_sheets` (then the file is a cache-skip, advancing
`ultima_folha_processada` for an in-range number), the file is skipped with no
output disposition and the state unchanged; it is never classified as BackPage
and never written, regardless of the length of the outcome's full text. -/
theorem claim1_amended (cfg : Config) (st : PipelineState) (f : FileJob)
    (hw : workerErrorJob f) :
    (List.lookup f.base st.correcoes = none →
      effectiveFolha st f = none
      ∧ processFile cfg st f = (FileResult.imgFailed, st))
  ∧ (∀ k, List.lookup f.base st.correcoes = some k → k ∈ st.processed →
      processFile cfg st f = (FileResult.cacheSkip k,
        { st with ultima := if 0 < k ∧ k ≤ cfg.maxFolhas then k else st.ultima }))
  ∧ (∀ k, List.lookup f.base st.correcoes = some k → k ∉ st.processed →
      processFile cfg st f = (FileResult.imgFailed, st)) := by
  refine ⟨?_, ?_, ?_⟩
  · intro hnc
    have heff : effectiveFolha st f = none := by
      unfold effectiveFolha
      rw [hnc, hw.1]
      rfl
    refine ⟨heff, ?_⟩
    rw [processFile_effective_none cfg st f heff]
    exact processRest_imgFailed cfg st f none hw.2.2
  · intro k hk hmem
    have heff : effectiveFolha st f = some k := by
      unfold effectiveFolha
      rw [hk]
    exact processFile_cache_hit cfg st f k heff hmem
  · intro k hk hmem
    have heff : effectiveFolha st f = some k := by
      unfold effectiveFolha
      rw [hk]
    rw [processFile_cache_miss cfg st f k heff hmem]
    exact processRest_imgFailed cfg st f (some k) hw.2.2

/-- Witness for claim C1 (amended) at concrete inputs: a genuine worker-error
outcome with no recorded correction is skipped with the state unchanged, and
with a recorded correction whose number 7 is already cached it becomes a
cache-skip advancing the last confirmed page to 7. -/
theorem claim1_witness :
    workerErrorJob ⟨"x", none, "ERRO INTERNO NO WORKER: e", false, none, true, true, true⟩
  ∧ processFile ⟨300⟩ ⟨5, [], ∅⟩
      ⟨"x", none, "ERRO INTERNO NO WORKER: e", false, none, true, true, true⟩
      = (FileResult.imgFailed, ⟨5, [], ∅⟩)
  ∧ processFile ⟨300⟩ ⟨5, [("x", 7)], {7}⟩
      ⟨"x", none, "ERRO INTERNO NO WORKER: e", false, none, true, true, true⟩
      = (FileResult.cacheSkip 7, ⟨7, [("x", 7)], {7}⟩) :=
  ⟨⟨by decide, rfl, rfl⟩,
    ((claim1_amended ⟨300⟩ ⟨5, [], ∅⟩
        ⟨"x", none, "ERRO INTERNO NO WORKER: e", false, none, true, true, true⟩
        ⟨by decide, rfl, rfl⟩).1 (by decide)).2,
    by
      rw [(claim1_amended ⟨300⟩ ⟨5, [("x", 7)], {7}⟩
          ⟨"x", none, "ERRO INTERNO NO WORKER: e", false, none, true, true, true⟩
          ⟨by decide, rfl, rfl⟩).2.1 7 (by decide) (by decide)]
      decide⟩

/-! ## Claim C5 -/

theorem processFile_ultima_none (cfg : Config) (st : PipelineState) (f : FileJob)
    (hfo : folhaOf (processFile cfg st f).1 = none) :
    (processFile cfg st f).2.ultima = st.ultima := by
  have h := processFile_ultima_spec cfg st f
  rw [hfo] at h
  exact h

theorem processFile_ultima_some (cfg : Config) (st : PipelineState) (f : FileJob) (n : Nat)
    (hfo : folhaOf (processFile cfg st f).1 = some n) :
    (processFile cfg st f).2.ultima = if 0 < n ∧ n ≤ cfg.maxFolhas then n else st.ultima := by
  have h := processFile_ultima_spec cfg st f
  rw [hfo] at h
  exact h

/-- Claim C5: `ultima_folha_processada` changes only through a disposition
carrying a number n with 0 < n ≤ max_folhas, in which case it becomes that
number; a disposition carrying a sentinel number (0, the opening term, or
max_folhas + 1, the closing term) never changes it. In particular, OCR
candidate 301 with max_folhas = 300 is written under the closing-term
filename and leaves `ultima_folha_processada` at 5. -/
theorem claim5_ultima_only_regular :
    (∀ cfg st f,
      ((processFile cfg st f).2.ultima ≠ st.ultima →
        folhaOf (processFile cfg st f).1 = some ((processFile cfg st f).2.ultima)
        ∧ 0 < (processFile cfg st f).2.ultima
        ∧ (processFile cfg st f).2.ultima ≤ cfg.maxFolhas)
      ∧ (∀ n, folhaOf (processFile cfg st f).1 = some n →
          (n = 0 ∨ n = cfg.maxFolhas + 1) →
          (processFile cfg st f).2.ultima = st.ultima))
  ∧ processFile ⟨300⟩ ⟨5, [], ∅⟩ ⟨"b", some 301, "t", true, none, true, true, true⟩
      = (FileResult.wrote "TERMO DE ENCERRAMENTO.pdf" (some 301), ⟨5, [], {301}⟩) := by
  constructor
  · intro cfg st f
    constructor
    · intro hne
      cases hfo : folhaOf (processFile cfg st f).1 with
      | none => exact absurd (processFile_ultima_none cfg st f hfo) hne
      | some n =>
        have h := processFile_ultima_some cfg st f n hfo
        by_cases hc : 0 < n ∧ n ≤ cfg.maxFolhas
        · rw [if_pos hc] at h
          exact ⟨congrArg some h.symm, by rw [h]; exact hc.1, by rw [h]; exact hc.2⟩
        · rw [if_neg hc] at h
          exact absurd h hne
    · intro n hfo hsent
      have h := processFile_ultima_some cfg st f n hfo
      rcases hsent with h0 | hmax
      · subst h0
        rw [if_neg (by omega)] at h
        exact h
      · subst hmax
        rw [if_neg (by omega)] at h
        exact h
  · decide

/-- Witness for claim C5 at concrete inputs: candidate 9 moves the last
confirmed page from 2 to 9 (an in-range disposition), exercising the first
implication of the claim. -/
theorem claim5_witness :
    folhaOf (processFile ⟨300⟩ ⟨2, [], ∅⟩ ⟨"c", some 9, "t", true, none, true, true, true⟩).1
        = some ((processFile ⟨300⟩ ⟨2, [], ∅⟩ ⟨"c", some 9, "t", true, none, true, true, true⟩).2.ultima)
    ∧ 0 < (processFile ⟨300⟩ ⟨2, [], ∅⟩ ⟨"c", some 9, "t", true, none, true, true, true⟩).2.ultima
    ∧ (processFile ⟨300⟩ ⟨2, [], ∅⟩ ⟨"c", some 9, "t", true, none, true, true, true⟩).2.ultima ≤ 300 :=
  (claim5_ultima_only_regular.1 ⟨300⟩ ⟨2, [], ∅⟩
    ⟨"c", some 9, "t", true, none, true, true, true⟩).1 (by decide)

/-! ## Claim C6: the cache loader

The regex `FL\. (\d{3})(?:-verso)?\.pdf` is searched inside `filename.upper()`,
but its tail demands the lowercase letters `-verso` and `.pdf`, which an
uppercased string cannot contain. The following lemmas prove the pattern can
never match, so the loader never returns a regular page number. -/

theorem toNat_ofNat_of_lt {m : Nat} (h : m < 55296) : (Char.ofNat m).toNat = m := by
  have hv : m.isValidChar := Or.inl h
  rw [Char.ofNat, dif_pos hv]
  rfl

theorem toUpper_ne_lowercase (c t : Char) (ht1 : 97 ≤ t.toNat) (ht2 : t.toNat ≤ 122) :
    Char.toUpper c ≠ t := by
  show (if c.toNat ≥ 97 ∧ c.toNat ≤ 122 then Char.ofNat (c.toNat - 32) else c) ≠ t
  split
  · next h =>
    intro heq
    have h2 : (Char.ofNat (c.toNat - 32)).toNat = c.toNat - 32 :=
      toNat_ofNat_of_lt (by omega)
    rw [heq] at h2
    omega
  · next h =>
    intro heq
    exact h (by rw [congrArg Char.toNat heq]; omega)

theorem mem_map_toUpper_ne {l : List Char} {t : Char} (ht1 : 97 ≤ t.toNat)
    (ht2 : t.toNat ≤ 122) : t ∉ l.map Char.toUpper := by
  intro hmem
  rcases List.mem_map.1 hmem with ⟨x, _, hx⟩
  exact toUpper_ne_lowercase x t ht1 ht2 hx

theorem matchFLAt_some_mem {l : List Char} {n : Nat} (h : matchFLAt l = some n) :
    ('p' : Char) ∈ l ∨ ('v' : Char) ∈ l := by
  unfold matchFLAt at h
  split at h
  · next c1 c2 c3 c4 d1 d2 d3 rest =>
    split_ifs at h with hc
    rcases hc.2.2.2.2.2.2.2 with hs | hs
    · right
      rcases List.isPrefixOf_iff_prefix.1 hs with ⟨t, ht⟩
      have hv : ('v' : Char) ∈ rest := by
        rw [← ht]
        simp
      simp [hv]
    · left
      rcases List.isPrefixOf_iff_prefix.1 hs with ⟨t, ht⟩
      have hp : ('p' : Char) ∈ rest := by
        rw [← ht]
        simp
      simp [hp]
  · cases h

theorem searchFL_map_toUpper (l : List Char) : searchFL (l.map Char.toUpper) = none := by
  induction l with
  | nil => rfl
  | cons c cs ih =>
    show searchFL (Char.toUpper c :: cs.map Char.toUpper) = none
    unfold searchFL
    cases hm : matchFLAt (Char.toUpper c :: cs.map Char.toUpper) with
    | some n =>
      exfalso
      have hmem := matchFLAt_some_mem hm
      rcases hmem with hp | hv
      · exact mem_map_toUpper_ne (t := 'p') (by decide) (by decide)
          (show ('p' : Char) ∈ (c :: cs).map Char.toUpper from hp)
      · exact mem_map_toUpper_ne (t := 'v') (by decide) (by decide)
          (show ('v' : Char) ∈ (c :: cs).map Char.toUpper from hv)
    | none =>
      exact ih

theorem cacheNumsOf_sentinel (maxF : Nat) (fn : String) (n : Nat)
    (h : n ∈ cacheNumsOf maxF fn) : n = 0 ∨ n = maxF + 1 := by
  unfold cacheNumsOf at h
  split at h
  · simp only [searchFL_map_toUpper, List.nil_append, List.mem_append] at h
    rcases h with h | h
    · split_ifs at h
      · left
        simpa using h
      · simp at h
    · split_ifs at h
      · right
        simpa using h
      · simp at h
  · simp at h

theorem foldl_insert_mem (l : List Nat) :
    ∀ (acc : Finset Nat) (m : Nat),
      m ∈ l.foldl (fun a k => insert k a) acc → m ∈ acc ∨ m ∈ l := by
  induction l with
  | nil =>
    intro acc m h
    exact Or.inl h
  | cons k ks ih =>
    intro acc m h
    rcases ih (insert k acc) m h with h1 | h1
    · rcases Finset.mem_insert.1 h1 with h2 | h2
      · right
        simp [h2]
      · exact Or.inl h2
    · right
      simp [h1]

theorem loadProcessedSheets_foldl_sentinel (maxF : Nat) (listing : List String) :
    ∀ (acc : Finset Nat), (∀ m ∈ acc, m = 0 ∨ m = maxF + 1) →
      ∀ n ∈ listing.foldl
        (fun acc fn => (cacheNumsOf maxF fn).foldl (fun a k => insert k a) acc) acc,
        n = 0 ∨ n = maxF + 1 := by
  induction listing with
  | nil => intro acc hacc n hn; exact hacc n hn
  | cons fn rest ih =>
    intro acc hacc n hn
    refine ih _ ?_ n hn
    intro m hm
    rcases foldl_insert_mem (cacheNumsOf maxF fn) acc m hm with h | h
    · exact hacc m h
    · exact cacheNumsOf_sentinel maxF fn m h

/-- Claim C6 (exposing the code bug): the loader does return the empty set on a
missing directory, but for every existing directory it only ever reports the
two term sentinels — the `FL. NNN.pdf` / `FL. NNN-verso.pdf` shapes are never
recognised, because the regex tail `-verso`/`.pdf` is matched case-sensitively
inside the uppercased filename. At the failing input, a directory holding
exactly `FL. 005.pdf` with max_folhas 300 yields the empty set where the claim
(and the function's own docstring) require the set containing 5. -/
theorem claim6_cache_loader_never_regular :
    (∀ listing maxF, loadProcessedSheets false listing maxF = ∅)
  ∧ (∀ d listing maxF n, n ∈ loadProcessedSheets d listing maxF → n = 0 ∨ n = maxF + 1)
  ∧ loadProcessedSheets true ["FL. 005.pdf"] 300 = ∅
  ∧ loadProcessedSheets true ["TERMO DE ABERTURA.pdf", "FL. 010-verso.pdf",
      "TERMO DE ENCERRAMENTO.pdf"] 300 = {0, 301} := by
  refine ⟨fun listing maxF => rfl, ?_, by decide, by decide⟩
  intro d listing maxF n hn
  unfold loadProcessedSheets at hn
  split at hn
  · simp at hn
  · exact loadProcessedSheets_foldl_sentinel maxF listing ∅ (by simp) n hn

/-- Witness for claim C6 at a concrete input: 0 is reported for an
opening-term file, and the general lemma confirms it is a sentinel. -/
theorem claim6_witness :
    (0 : Nat) ∈ loadProcessedSheets true ["TERMO DE ABERTURA.pdf"] 300
  ∧ ((0 : Nat) = 0 ∨ (0 : Nat) = 300 + 1) :=
  ⟨by decide,
    claim6_cache_loader_never_regular.2.1 true ["TERMO DE ABERTURA.pdf"] 300 0 (by decide)⟩

/-! ## Claim C7 -/

theorem runLoop_cons (cfg : Config) (f : FileJob) (rest : List FileJob) (st : PipelineState)
    (hc : f.contFlag = true) (hr : f.resultOk = true) :
    runLoop cfg (f :: rest) st
      = ((processFile cfg st f).1 :: (runLoop cfg rest (processFile cfg st f).2).1,
         (runLoop cfg rest (processFile cfg st f).2).2) := by
  show (if f.contFlag = false then ([], st)
    else if f.resultOk = false then ([], st)
    else ((processFile cfg st f).1 :: (runLoop cfg rest (processFile cfg st f).2).1,
          (runLoop cfg rest (processFile cfg st f).2).2)) = _
  rw [hc, hr]
  simp

theorem processRest_no_write_of_saveFailed (cfg : Config) (st : PipelineState) (f : FileJob)
    (fo : Option Nat) (hs : f.saveOk = false) :
    writtenNames [(processRest cfg st f fo).1] = [] := by
  by_cases himg : f.imgOk = true
  · cases fo with
    | some n =>
      rw [processRest_some cfg st f n himg, finishSave_fst_failed cfg st f (some n) "" st.correcoes hs]
      rfl
    | none =>
      by_cases hv : textoLimpoLen f.fullText < LIMIAR_CARACTERES_VERSO ∧ 0 < st.ultima
      · rw [processRest_none_verso cfg st f himg hv.1 hv.2,
          finishSave_fst_failed cfg st f (some st.ultima) "-verso" st.correcoes hs]
        rfl
      · rw [processRest_none_dialog cfg st f himg hv]
        cases hd : f.dialogResp with
        | some k =>
          rw [finishSave_fst_failed cfg st f (some k) "" ((f.base, k) :: st.correcoes) hs]
          rfl
        | none =>
          rw [finishSave_fst_failed cfg st f none "" st.correcoes hs]
          rfl
  · have himg2 : f.imgOk = false := by revert himg; cases f.imgOk <;> simp
    rw [processRest_imgFailed cfg st f fo himg2]
    rfl

/-- Claim C7 counterexample: the claim says every file on which a per-file
error occurs is still accounted for with an output disposition — an
error-named output file or a cache skip. Here the PDF save fails for a
normally resolved page 5: the loop consumes the file and continues, but the
result is a failed write — no output file exists for it and it is not a cache
skip, so the file ends the run with no output disposition. -/
theorem claim7_counterexample :
    (runLoop ⟨300⟩ [⟨"c", some 5, "t", true, none, false, true, true⟩] ⟨0, [], ∅⟩).1
      = [FileResult.writeFailed "FL. 005.pdf" (some 5)]
  ∧ writtenNames [FileResult.writeFailed "FL. 005.pdf" (some 5)] = [] := by
  refine ⟨by decide, by decide⟩

/-- Claim C7 amended: a per-file error never breaks the sequential loop — a
consumed file is always followed by the processing of the remaining files; an
unresolved page whose error-named write succeeds is accounted for as
`ERRO_OCR_{base}.pdf`; but a file whose PDF save fails produces no output file
at all. -/
theorem claim7_amended (cfg : Config) (st : PipelineState) (f : FileJob)
    (rest : List FileJob) :
    (f.contFlag = true → f.resultOk = true →
      runLoop cfg (f :: rest) st
        = ((processFile cfg st f).1 :: (runLoop cfg rest (processFile cfg st f).2).1,
           (runLoop cfg rest (processFile cfg st f).2).2))
  ∧ (effectiveFolha st f = none → f.imgOk = true →
      ¬ (textoLimpoLen f.fullText < LIMIAR_CARACTERES_VERSO ∧ 0 < st.ultima) →
      f.dialogResp = none → f.saveOk = true →
      (processFile cfg st f).1 = FileResult.wrote ("ERRO_OCR_" ++ f.base ++ ".pdf") none)
  ∧ (f.saveOk = false → writtenNames [(processFile cfg st f).1] = []) := by
  refine ⟨?_, ?_, ?_⟩
  · intro hc hr
    exact runLoop_cons cfg f rest st hc hr
  · intro heff himg hnv hd hsave
    rw [processFile_effective_none cfg st f heff,
      processRest_none_dialog cfg st f himg hnv, hd,
      finishSave_fst cfg st f none "" st.correcoes hsave]
    rfl
  · intro hs
    cases heff : effectiveFolha st f with
    | some n =>
      by_cases hmem : n ∈ st.processed
      · rw [processFile_cache_hit cfg st f n heff hmem]
        rfl
      · rw [processFile_cache_miss cfg st f n heff hmem]
        exact processRest_no_write_of_saveFailed cfg st f (some n) hs
    | none =>
      rw [processFile_effective_none cfg st f heff]
      exact processRest_no_write_of_saveFailed cfg st f none hs

/-- Witness for claim C7 (amended) at concrete inputs: after consuming a file
the loop continues with the next one, and an unresolved page with a declined
dialog and a successful save is written under the error name. -/
theorem claim7_witness :
    runLoop ⟨300⟩
      (⟨"a", some 1, "t", true, none, true, true, true⟩
        :: [⟨"b", some 2, "t", true, none, true, true, true⟩]) ⟨0, [], ∅⟩
      = ((processFile ⟨300⟩ ⟨0, [], ∅⟩ ⟨"a", some 1, "t", true, none, true, true, true⟩).1
          :: (runLoop ⟨300⟩ [⟨"b", some 2, "t", true, none, true, true, true⟩]
              (processFile ⟨300⟩ ⟨0, [], ∅⟩ ⟨"a", some 1, "t", true, none, true, true, true⟩).2).1,
         (runLoop ⟨300⟩ [⟨"b", some 2, "t", true, none, true, true, true⟩]
             (processFile ⟨300⟩ ⟨0, [], ∅⟩ ⟨"a", some 1, "t", true, none, true, true, true⟩).2).2)
  ∧ (processFile ⟨300⟩ ⟨0, [], ∅⟩ ⟨"e", none, "", true, none, true, true, true⟩).1
      = FileResult.wrote ("ERRO_OCR_" ++ "e" ++ ".pdf") none :=
  ⟨(claim7_amended ⟨300⟩ ⟨0, [], ∅⟩ ⟨"a", some 1, "t", true, none, true, true, true⟩
      [⟨"b", some 2, "t", true, none, true, true, true⟩]).1 (by decide) (by decide),
   (claim7_amended ⟨300⟩ ⟨0, [], ∅⟩ ⟨"e", none, "", true, none, true, true, true⟩ []).2.1
      (by decide) (by decide) (by decide) (by decide) (by decide)⟩

/-! ## Claim C8 -/

theorem runLoop_take_of_flag (cfg : Config) :
    ∀ (files : List FileJob) (st : PipelineState) (j : Nat) (g : FileJob),
      files.get? j = some g → g.contFlag = false →
      runLoop cfg files st = runLoop cfg (files.take j) st := by
  intro files
  induction files with
  | nil =>
    intro st j g hg _
    simp at hg
  | cons f rest ih =>
    intro st j g hg hflag
    cases j with
    | zero =>
      simp at hg
      subst hg
      unfold runLoop
      rw [hflag]
      rfl
    | succ j =>
      have hg2 : rest.get? j = some g := by simpa using hg
      show runLoop cfg (f :: rest) st = runLoop cfg (f :: rest.take j) st
      unfold runLoop
      by_cases hc : f.contFlag = false
      · rw [if_pos hc, if_pos hc]
      · rw [if_neg hc, if_neg hc]
        by_cases hr : f.resultOk = false
        · rw [if_pos hr, if_pos hr]
        · rw [if_neg hr, if_neg hr]
          simp only []
          rw [ih (processFile cfg st f).2 j g hg2 hflag]

theorem runLoop_length_le (cfg : Config) :
    ∀ (files : List FileJob) (st : PipelineState),
      (runLoop cfg files st).1.length ≤ files.length := by
  intro files
  induction files with
  | nil => intro st; simp [runLoop]
  | cons f rest ih =>
    intro st
    unfold runLoop
    by_cases hc : f.contFlag = false
    · rw [if_pos hc]
      simp
    · rw [if_neg hc]
      by_cases hr : f.resultOk = false
      · rw [if_pos hr]
        simp
      · rw [if_neg hr]
        simpa using ih (processFile cfg st f).2

/-- Claim C8: if the stop flag is observed cleared at the top of the iteration
for file i+1 (i.e. between consuming file i and file i+1), the whole run
coincides with the run over only the first i+1 files: no file beyond index i
is consumed (at most i+1 results exist) and the set of files written — hence
the on-disk outputs of the already completed files — is exactly that of the
truncated run, unmodified afterwards. -/
theorem claim8_cancellation (cfg : Config) (files : List FileJob) (st : PipelineState)
    (i : Nat) (g : FileJob) (hget : files.get? (i + 1) = some g)
    (hflag : g.contFlag = false) :
    runLoop cfg files st = runLoop cfg (files.take (i + 1)) st
  ∧ (runLoop cfg files st).1.length ≤ i + 1
  ∧ writtenNames (runLoop cfg files st).1
      = writtenNames (runLoop cfg (files.take (i + 1)) st).1 := by
  have heq := runLoop_take_of_flag cfg files st (i + 1) g hget hflag
  refine ⟨heq, ?_, by rw [heq]⟩
  rw [heq]
  calc (runLoop cfg (files.take (i + 1)) st).1.length
      ≤ (files.take (i + 1)).length := runLoop_length_le cfg (files.take (i + 1)) st
    _ ≤ i + 1 := by simp

/-- Witness for claim C8 at a concrete input: the third file's iteration
observes the cleared flag, so the run equals the run over the first two files
and at most two results exist. -/
theorem claim8_witness :
    runLoop ⟨300⟩
        [⟨"a", some 1, "t", true, none, true, true, true⟩,
         ⟨"b", some 2, "t", true, none, true, true, true⟩,
         ⟨"c", some 3, "t", true, none, true, false, true⟩] ⟨0, [], ∅⟩
      = runLoop ⟨300⟩
          ([⟨"a", some 1, "t", true, none, true, true, true⟩,
            ⟨"b", some 2, "t", true, none, true, true, true⟩,
            ⟨"c", some 3, "t", true, none, true, false, true⟩].take 2) ⟨0, [], ∅⟩
  ∧ (runLoop ⟨300⟩
        [⟨"a", some 1, "t", true, none, true, true, true⟩,
         ⟨"b", some 2, "t", true, none, true, true, true⟩,
         ⟨"c", some 3, "t", true, none, true, false, true⟩] ⟨0, [], ∅⟩).1.length ≤ 2
  ∧ writtenNames (runLoop ⟨300⟩
        [⟨"a", some 1, "t", true, none, true, true, true⟩,
         ⟨"b", some 2, "t", true, none, true, true, true⟩,
         ⟨"c", some 3, "t", true, none, true, false, true⟩] ⟨0, [], ∅⟩).1
      = writtenNames (runLoop ⟨300⟩
          ([⟨"a", some 1, "t", true, none, true, true, true⟩,
            ⟨"b", some 2, "t", true, none, true, true, true⟩,
            ⟨"c", some 3, "t", true, none, true, false, true⟩].take 2) ⟨0, [], ∅⟩).1 :=
  claim8_cancellation ⟨300⟩
    [⟨"a", some 1, "t", true, none, true, true, true⟩,
     ⟨"b", some 2, "t", true, none, true, true, true⟩,
     ⟨"c", some 3, "t", true, none, true, false, true⟩] ⟨0, [], ∅⟩ 1
    ⟨"c", some 3, "t", true, none, true, false, true⟩ (by decide) (by decide)

/-! ## Claim C10 -/

/-- Claim C10: run_processing_logic returns None on each early exit — the
output directory does not exist and cannot be created, no .jpg/.jpeg files
were found, or the parallel-execution block raises — and otherwise (the run
enters the sequential consumption loop) it returns the final value of
`ultima_folha_processada`, which may equal the value passed in. -/
theorem claim10_return_value (cfg : Config) (env : RunEnv) (outputListing : List String)
    (files : List FileJob) (u : Nat) (c : List (String × Nat)) :
    (env.outputDirExists = false → env.mkdirOk = false →
      runProcessingLogic cfg env outputListing files u c = none)
  ∧ (files = [] → runProcessingLogic cfg env outputListing files u c = none)
  ∧ (env.poolFails = true → runProcessingLogic cfg env outputListing files u c = none)
  ∧ ((env.outputDirExists = true ∨ env.mkdirOk = true) → files ≠ [] → env.poolFails = false →
      runProcessingLogic cfg env outputListing files u c
        = some (runLoop cfg files
            ⟨u, c, loadProcessedSheets true outputListing cfg.maxFolhas⟩).2.ultima) := by
  refine ⟨?_, ?_, ?_, ?_⟩
  · intro h1 h2
    unfold runProcessingLogic
    rw [if_pos ⟨h1, h2⟩]
  · intro h
    subst h
    unfold runProcessingLogic
    split
    · rfl
    · simp
  · intro h
    unfold runProcessingLogic
    simp [h]
  · intro h1 h2 h3
    have hnc : ¬ (env.outputDirExists = false ∧ env.mkdirOk = false) := by
      intro hc
      rcases h1 with h | h <;> simp [h] at hc
    unfold runProcessingLogic
    rw [if_neg hnc, if_neg (by simpa using h2), if_neg (by rw [h3]; simp)]

/-- Witness for claim C10 at concrete inputs: with a missing, uncreatable
output directory the run returns None; with everything in place it returns the
final last-confirmed page. -/
theorem claim10_witness :
    runProcessingLogic ⟨300⟩ ⟨false, false, false⟩ [] [] 4 [] = none
  ∧ runProcessingLogic ⟨300⟩ ⟨true, true, false⟩ []
      [⟨"a", some 9, "t", true, none, true, true, true⟩] 4 []
      = some (runLoop ⟨300⟩ [⟨"a", some 9, "t", true, none, true, true, true⟩]
          ⟨4, [], loadProcessedSheets true [] 300⟩).2.ultima :=
  ⟨(claim10_return_value ⟨300⟩ ⟨false, false, false⟩ [] [] 4 []).1 (by decide) (by decide),
   (claim10_return_value ⟨300⟩ ⟨true, true, false⟩ []
      [⟨"a", some 9, "t", true, none, true, true, true⟩] 4 []).2.2.2
      (by decide) (by decide) (by decide)⟩

end Image2Doc
